import Mathlib

/-!
Verification development for the maternoscope collection-and-enrichment
pipeline.

The Lean definitions below are a shallow embedding of the Python sources:

* `src/ingestion/pullpush_scraper.py` — `PullPushScraper.get_posts_for_date`
  (cursor-forward pagination) and `PullPushScraper._extract_post_data`;
* `src/ingestion/reddit_scraper.py` — `RedditScraper.get_posts_for_date`
  (hot+new multi-listing merge) and `RedditScraper._extract_post_data`;
* `src/ingestion/praw_scraper.py` — `TopPostsScraper.get_top_posts` and
  `TopPostsScraper._extract_post_data`;
* `src/ingestion/check_existing_data.py` — the duplication-check CLI `main`;
* `src/llm/annotate_reddit_posts.py` — `LLMAnnotator.fetch_posts_to_annotate`,
  the batched loop in `main`, and `LLMAnnotator.create_annotation_table`.

Modelling conventions:

* Python datetimes are represented by their epoch seconds (`Int`); the
  wall-clock `scraped_at` field (set from `datetime.now()`) is omitted since
  it is nondeterministic and no claim concerns it.
* A dict-based raw item (`post.get(k, d)` / `post[k]`) is a structure of
  `Option` fields, `none` meaning the key is missing; `post[k]` on a missing
  key is the `KeyError` path of the source.
* A PRAW submission is attribute-based; an `Option` field with value `none`
  models an attribute access that raises (or, for `link_flair_text` and
  `selftext`, the attribute being `None`/absent as noted at each use site).
* External collaborators (the HTTP page server, the listing endpoints, the
  LLM, the warehouse) are passed in as explicit function/list arguments.
* `list.sort(key=...)` (a stable ascending sort) is modelled by Mathlib's
  stable `List.insertionSort` on the same key.
-/

/-- The canonical post record built by the `_extract_post_data` methods. -/
structure PostData where
  post_id : String
  post_date : Int
  post_timestamp : Int
  post_flair : Option String
  title : String
  url : String
  content : String
  score : Int
  num_comments : Int
  subreddit : String
  deriving DecidableEq

/-- Ordering used by `posts_data.sort(key=lambda x: x['post_date'])`. -/
def postDateLe : PostData → PostData → Prop := fun a b => a.post_date ≤ b.post_date

instance : DecidableRel postDateLe :=
  fun a b => inferInstanceAs (Decidable (a.post_date ≤ b.post_date))

instance : IsTotal PostData postDateLe := ⟨fun a b => Int.le_total a.post_date b.post_date⟩

instance : IsTrans PostData postDateLe := ⟨fun _ _ _ h1 h2 => le_trans h1 h2⟩

/-- A raw item of the PullPush search API (a JSON dict); `none` = key absent. -/
structure RawPost where
  id : Option String
  created_utc : Option Int
  selftext : Option String
  url : Option String
  link_flair_text : Option String
  permalink : Option String
  title : Option String
  score : Option Int
  num_comments : Option Int
  subreddit : Option String
  deriving DecidableEq

/-- Model of `PullPushScraper._extract_post_data`: dict access `post['created_utc']`
and `post['id']` raise `KeyError` when absent, which the surrounding
`except` turns into a `None` result; every other field uses `post.get`
with a default.  `content` is `post.get('selftext','') or post.get('url','')`
(Python `or` takes the url when the selftext is empty), and `url` is
rebuilt from the permalink. -/
def pullpushExtract (post : RawPost) : Option PostData :=
  match post.created_utc, post.id with
  | some ts, some pid =>
    some { post_id := pid
           post_date := ts
           post_timestamp := ts
           post_flair := post.link_flair_text
           title := post.title.getD ""
           url := "https://reddit.com" ++ post.permalink.getD ""
           content := if post.selftext.getD "" = "" then post.url.getD ""
                      else post.selftext.getD ""
           score := post.score.getD 0
           num_comments := post.num_comments.getD 0
           subreddit := post.subreddit.getD "" }
  | _, _ => none

/-- Python truthiness of `if max_posts and post_count >= max_posts`
(`max_posts` of `None` or `0` never triggers the cap). -/
def maxHit (mp : Option Nat) (c : Nat) : Bool :=
  match mp with
  | some m => decide (m ≠ 0) && decide (m ≤ c)
  | none => false

/-- The `for post in posts` body of `PullPushScraper.get_posts_for_date`:
break on the cap, append only non-`None` extraction results, count appended
posts. Returns the updated `post_count` and accumulated `posts_data`. -/
def pullpushConsume (mp : Option Nat) : List RawPost → Nat → List PostData → Nat × List PostData
  | [], c, acc => (c, acc)
  | p :: rest, c, acc =>
    if maxHit mp c then (c, acc)
    else
      match pullpushExtract p with
      | some d => pullpushConsume mp rest (c + 1) (acc ++ [d])
      | none => pullpushConsume mp rest c acc

/-- Model of `'size': min(100, max_posts - post_count) if max_posts else 100`
(Python truthiness again: `max_posts = 0` behaves like `None`; the
negative-result case of Python's `-` coincides with `Nat` truncation
for the comparison `len(posts) < size` performed on it). -/
def pullpushSize (mp : Option Nat) (c : Nat) : Nat :=
  match mp with
  | some m => if m = 0 then 100 else min 100 (m - c)
  | none => 100

/-- The `while True` pagination loop of `PullPushScraper.get_posts_for_date`.
`server after size` abstracts one `GET` returning the decoded `data` list
for lower-bound cursor `after` and page size `size`.  The loop stops on an
empty page, consumes the page, stops when the page is shorter than the
requested size, otherwise continues with `after = posts[-1]['created_utc']`
(a missing `created_utc` is the `KeyError` handler, which breaks).  `fuel`
bounds the unbounded `while True`. -/
def pullpushLoopAux (server : Int → Nat → List RawPost) (mp : Option Nat) :
    Nat → Int → Nat → List PostData → List PostData
  | 0, _, _, acc => acc
  | fuel + 1, after, c, acc =>
    let size := pullpushSize mp c
    let posts := server after size
    if posts = [] then acc
    else
      let r := pullpushConsume mp posts c acc
      if posts.length < size then r.2
      else
        match posts.getLast?.bind RawPost.created_utc with
        | some ts => pullpushLoopAux server mp fuel ts r.1 r.2
        | none => r.2

/-- Model of `PullPushScraper.get_posts_for_date`: run the pagination loop from the
start-of-day timestamp and finish with
`posts_data.sort(key=lambda x: x['post_date'])`. -/
def pullpushCollect (server : Int → Nat → List RawPost) (mp : Option Nat)
    (fuel : Nat) (startTs : Int) : List PostData :=
  List.insertionSort postDateLe (pullpushLoopAux server mp fuel startTs 0 [])

/-- A PRAW submission (attribute object).  `id` and `subreddit_display_name`
are `Option` to model attribute accesses that can raise (PRAW objects fetch
attributes lazily); `selftext` is `Option` because `praw_scraper` guards it
with `hasattr`; `link_flair_text` is always readable but its value may be
Python `None` (`none` here). -/
structure Submission where
  id : Option String
  created_utc : Int
  selftext : Option String
  url : String
  link_flair_text : Option String
  title : String
  score : Int
  num_comments : Int
  subreddit_display_name : Option String
  permalink : String
  deriving DecidableEq

/-- Outcome of a PRAW `_extract_post_data` call: a record, a caught
exception (the method returns `None`), or an exception that escapes the
method (its `except` handler itself reads `submission.id`, so when `id` is
the attribute that raised, the handler re-raises). -/
inductive ExtractResult where
  | ok (p : PostData)
  | skipped
  | raised
  deriving DecidableEq

/-- Model of `RedditScraper._extract_post_data`: `content` is
`submission.selftext if submission.selftext else submission.url`, flair is
normalized (`None`/empty → `None`), `url` is rebuilt from the permalink.
A failing attribute access is caught and logged — but the log line reads
`submission.id`, so a missing `id` re-raises past the method. -/
def redditExtract (s : Submission) : ExtractResult :=
  match s.id with
  | none => ExtractResult.raised
  | some pid =>
    match s.selftext, s.subreddit_display_name with
    | some st, some sub =>
      ExtractResult.ok
        { post_id := pid
          post_date := s.created_utc
          post_timestamp := s.created_utc
          post_flair := match s.link_flair_text with
                        | some t => if t = "" then none else some t
                        | none => none
          title := s.title
          url := "https://reddit.com" ++ s.permalink
          content := if st = "" then s.url else st
          score := s.score
          num_comments := s.num_comments
          subreddit := sub }
    | _, _ => ExtractResult.skipped

/-- Model of `TopPostsScraper._extract_post_data`: `content` is the raw
`submission.selftext` (empty string when the attribute is absent, never the
url), `url` is `submission.url` verbatim, flair is
`getattr(submission, 'link_flair_text', None)` kept as-is. -/
def topExtract (s : Submission) : ExtractResult :=
  match s.id with
  | none => ExtractResult.raised
  | some pid =>
    match s.subreddit_display_name with
    | none => ExtractResult.skipped
    | some sub =>
      ExtractResult.ok
        { post_id := pid
          post_date := s.created_utc
          post_timestamp := s.created_utc
          post_flair := s.link_flair_text
          title := s.title
          url := s.url
          content := s.selftext.getD ""
          score := s.score
          num_comments := s.num_comments
          subreddit := sub }

/-- The `subreddit.hot(limit=None)` walk of `RedditScraper.get_posts_for_date`
(lines 79–100): items inside `[start, end)` are extracted and the result —
even a `None` — is appended unconditionally (`posts_data.append(post_data)`)
with `post_count` incremented; an item older than `start` breaks; others are
skipped.  The `Bool` result records an exception escaping the `for` body
(caught by the listing-level `try`). -/
def hotWalk (mp : Option Nat) (startTs endTs : Int) :
    List Submission → Nat → List (Option PostData) → Nat × List (Option PostData) × Bool
  | [], c, acc => (c, acc, false)
  | s :: rest, c, acc =>
    if maxHit mp c then (c, acc, false)
    else if startTs ≤ s.created_utc ∧ s.created_utc < endTs then
      match redditExtract s with
      | ExtractResult.raised => (c, acc, true)
      | ExtractResult.ok p => hotWalk mp startTs endTs rest (c + 1) (acc ++ [some p])
      | ExtractResult.skipped => hotWalk mp startTs endTs rest (c + 1) (acc ++ [none])
    else if s.created_utc < startTs then (c, acc, false)
    else hotWalk mp startTs endTs rest c acc

/-- Model of `any(p['post_id'] == submission.id for p in posts_data)`: a short-circuit
scan of the accumulated batch; hitting a `None` entry before a match raises
`TypeError` (`none` result). -/
def dupCheck (pid : String) : List (Option PostData) → Option Bool
  | [] => some false
  | some p :: rest => if p.post_id = pid then some true else dupCheck pid rest
  | none :: _ => none

/-- The `subreddit.new(limit=None)` walk (lines 103–128): same as the hot
walk but an in-window item is first checked against the accumulated batch by
`post_id`; duplicates are skipped.  Reading `submission.id` for that check,
or scanning past a `None` batch entry, raises out of the `for` body. -/
def newWalk (mp : Option Nat) (startTs endTs : Int) :
    List Submission → Nat → List (Option PostData) → Nat × List (Option PostData) × Bool
  | [], c, acc => (c, acc, false)
  | s :: rest, c, acc =>
    if maxHit mp c then (c, acc, false)
    else if startTs ≤ s.created_utc ∧ s.created_utc < endTs then
      match s.id with
      | none => (c, acc, true)
      | some pid =>
        match dupCheck pid acc with
        | none => (c, acc, true)
        | some true => newWalk mp startTs endTs rest c acc
        | some false =>
          match redditExtract s with
          | ExtractResult.raised => (c, acc, true)
          | ExtractResult.ok p => newWalk mp startTs endTs rest (c + 1) (acc ++ [some p])
          | ExtractResult.skipped => newWalk mp startTs endTs rest (c + 1) (acc ++ [none])
    else if s.created_utc < startTs then (c, acc, false)
    else newWalk mp startTs endTs rest c acc

/-- One iteration of `for time_filter in ['day', 'week']`: the inner `try`
wraps both walks, so an exception in the hot walk skips the new walk of
that pass (`except ...: continue`). -/
def redditPass (mp : Option Nat) (startTs endTs : Int) (hot newL : List Submission)
    (c : Nat) (acc : List (Option PostData)) : Nat × List (Option PostData) :=
  let h := hotWalk mp startTs endTs hot c acc
  if h.2.2 then (h.1, h.2.1)
  else
    let n := newWalk mp startTs endTs newL h.1 h.2.1
    (n.1, n.2.1)

/-- The final `posts_data.sort(key=lambda x: x['post_date'])`: if any `None`
was appended, the sort key raises `TypeError`, the outer `except` catches it
and the whole call returns `[]`; otherwise the batch is sorted ascending. -/
def finishBatch (acc : List (Option PostData)) : List PostData :=
  if acc.all Option.isSome then List.insertionSort postDateLe (acc.reduceOption)
  else []

/-- Model of `RedditScraper.get_posts_for_date`: two passes (the `time_filter` loop
body never uses the filter value, so both passes walk the same listings,
assumed stable for the duration of the call), each guarded by the
`post_count` cap, followed by the final sort. -/
def redditCollect (mp : Option Nat) (startTs endTs : Int)
    (hot newL : List Submission) : List PostData :=
  let s1 := if maxHit mp 0 then ((0 : Nat), ([] : List (Option PostData)))
            else redditPass mp startTs endTs hot newL 0 []
  let s2 := if maxHit mp s1.1 then s1
            else redditPass mp startTs endTs hot newL s1.1 s1.2
  finishBatch s2.2

/-- Python's substring test `needle in hay` (empty needle matches). -/
def strContains (hay needle : String) : Bool :=
  needle == "" || (List.range (hay.length + 1)).any fun i =>
    (hay.drop i).take needle.length == needle

/-- The flair gate of `TopPostsScraper.get_top_posts`:
`if not post_flair or flair_filter.lower() not in post_flair.lower(): continue`.
Returns `true` when the item passes (is kept). -/
def flairPass (f : String) (fl : Option String) : Bool :=
  match fl with
  | none => false
  | some t => if t = "" then false else strContains t.toLower f.toLower

/-- The `for submission in submissions` loop of
`TopPostsScraper.get_top_posts`: cap check, seen-set skip (reading
`submission.id` can raise, which the surrounding `try` turns into an empty
overall result, `none` here), optional flair filter, then extraction — only
a successful extraction is appended and its id added to the seen set. -/
def topLoop (mp : Option Nat) (ff : Option String) :
    List Submission → List String → Nat → List PostData → Option (List PostData)
  | [], _, _, acc => some acc
  | s :: rest, seen, c, acc =>
    if maxHit mp c then some acc
    else
      match s.id with
      | none => none
      | some pid =>
        if pid ∈ seen then topLoop mp ff rest seen c acc
        else
          if (match ff with
              | some f => decide (f ≠ "") && !(flairPass f s.link_flair_text)
              | none => false)
          then topLoop mp ff rest seen c acc
          else
            match topExtract s with
            | ExtractResult.ok p => topLoop mp ff rest (seen ++ [pid]) (c + 1) (acc ++ [p])
            | ExtractResult.skipped => topLoop mp ff rest seen c acc
            | ExtractResult.raised => none

/-- Model of `TopPostsScraper.get_top_posts`: run the loop over the `subreddit.top`
listing; any escaped exception yields `[]`.  Note: no final sort. -/
def topCollect (mp : Option Nat) (ff : Option String) (subs : List Submission) : List PostData :=
  match topLoop mp ff subs [] 0 [] with
  | some acc => acc
  | none => []

/-- The `reddit_posts` warehouse table as probed by
`SnowflakeConnector.check_existing_data`: whether it exists and, per row,
the `SUBREDDIT` value and the `DATE(POST_DATE)` day. -/
structure PostsTable where
  tableExists : Bool
  rows : List (String × String)
  deriving DecidableEq

/-- Model of `RedditScraper.check_existing_csv`: glob
`reddit_posts_{subreddit}_{target_date}_*.csv` over the output directory,
true iff some file matches. -/
def checkExistingCsv (sub date : String) (files : List String) : Bool :=
  files.any fun f =>
    f.startsWith ("reddit_posts_" ++ sub ++ "_" ++ date ++ "_") && f.endsWith ".csv"

/-- Model of `SnowflakeConnector.check_existing_data`: `False` when the table does
not exist, else `COUNT(*) > 0` over rows matching the subreddit
(case-insensitively) and the date. -/
def checkExistingData (sub date : String) (t : PostsTable) : Bool :=
  if t.tableExists then
    decide (0 < (t.rows.filter fun r => r.1.toUpper == sub.toUpper && r.2 == date).length)
  else false

/-- Model of `main` in `check_existing_data.py`: each probe runs only under its flag
(`--check-csv` / `--check-snowflake`); a Snowflake connection failure is
caught and counts as no match (`connOk = false`); then
`print("EXISTS"); sys.exit(0)` or `print("NOT_EXISTS"); sys.exit(1)`. -/
def checkMain (checkCsv checkSf : Bool) (sub date : String) (files : List String)
    (connOk : Bool) (t : PostsTable) : String × Nat :=
  let csvE := if checkCsv then checkExistingCsv sub date files else false
  let sfE := if checkSf then (if connOk then checkExistingData sub date t else false)
             else false
  if csvE || sfE then ("EXISTS", 0) else ("NOT_EXISTS", 1)

/-- One row of `ANALYTICS_BRONZE.STG_REDDIT_POSTS_PII` as selected by the
annotator (`needsAnnot` models the `needs_annotation` flag column). -/
structure SourcePost where
  post_id : String
  needsAnnot : Bool
  text_for_llm : String
  deriving DecidableEq

/-- Model of `LLMAnnotator.fetch_posts_to_annotate`: the anti-join
`WHERE needs_annotation = TRUE AND post_id NOT IN (SELECT DISTINCT post_id
FROM ANALYTICS_ML.REDDIT_POSTS_ANNOTATED)` with an optional `LIMIT`.
The warehouse's result order is modelled as the source-table order. -/
def fetchPostsToAnnot (source : List SourcePost) (tableIds : List String)
    (limit : Option Nat) : List SourcePost :=
  let sel := source.filter fun p => p.needsAnnot && !(decide (p.post_id ∈ tableIds))
  match limit with
  | some n => sel.take n
  | none => sel

/-- Externally visible actions of the annotator CLI `main`, in order. -/
inductive Effect where
  | createSchema
  | createTable
  | fetchRows
  | printRows
  | annotCall (pid : String)
  | flushRows (pids : List String)
  | writeCsv (pids : List String)
  deriving DecidableEq

/-- Recognizes a model (Annotator) call in a trace. -/
def isAnnotCall : Effect → Bool
  | Effect.annotCall _ => true
  | _ => false

/-- Recognizes a row write (warehouse insert or CSV file) in a trace. -/
def isRowWrite : Effect → Bool
  | Effect.flushRows _ => true
  | Effect.writeCsv _ => true
  | _ => false

/-- State of the `ANALYTICS_ML` side of the warehouse: the schema and
`REDDIT_POSTS_ANNOTATED` table existence plus its rows (by `post_id`). -/
structure Warehouse where
  schemaExists : Bool
  tableExists : Bool
  annotRows : List String
  deriving DecidableEq

/-- The `for idx, row in posts_df.iterrows()` loop of the annotator `main`:
each record gets exactly one model call (`ok` tells whether it parses);
failures are dropped, successes accumulate in `annotations`, and whenever
`len(annotations) >= batch_size` the batch is flushed (appended to the
table) and reset.  Returns (ids flushed by in-loop batches, the pending
remainder, the effect trace of the loop). -/
def annotLoop (ok : String → Bool) (bs : Nat) :
    List SourcePost → List String → List String → List String × List String × List Effect
  | [], pending, flushed => (flushed, pending, [])
  | p :: rest, pending, flushed =>
    let pending' := if ok p.post_id then pending ++ [p.post_id] else pending
    if bs ≤ pending'.length then
      let r := annotLoop ok bs rest [] (flushed ++ pending')
      (r.1, r.2.1, Effect.annotCall p.post_id :: Effect.flushRows pending' :: r.2.2)
    else
      let r := annotLoop ok bs rest pending' flushed
      (r.1, r.2.1, Effect.annotCall p.post_id :: r.2.2)

/-- Model of `main` in `annotate_reddit_posts.py`: create schema and table
(`CREATE ... IF NOT EXISTS`, run before anything else), fetch, then either
dry-run (print and return) or run the loop; a non-empty remainder is
flushed, and only then, under `--save-csv`, written to a timestamped CSV.
Returns the final warehouse, the effect trace, and the CSV contents (ids)
if a CSV file was written. -/
def annotMain (ok : String → Bool) (bs : Nat) (dryRun saveCsv : Bool)
    (source : List SourcePost) (limit : Option Nat) (wh : Warehouse) :
    Warehouse × List Effect × Option (List String) :=
  let wh1 : Warehouse := { wh with schemaExists := true, tableExists := true }
  let tr0 : List Effect := [Effect.createSchema, Effect.createTable, Effect.fetchRows]
  let fetched := fetchPostsToAnnot source wh1.annotRows limit
  if dryRun then (wh1, tr0 ++ [Effect.printRows], none)
  else
    let r := annotLoop ok bs fetched [] []
    let wh2 : Warehouse := { wh1 with annotRows := wh1.annotRows ++ r.1 }
    if r.2.1.isEmpty then (wh2, tr0 ++ r.2.2, none)
    else
      let wh3 : Warehouse := { wh2 with annotRows := wh2.annotRows ++ r.2.1 }
      if saveCsv then
        (wh3, tr0 ++ r.2.2 ++ [Effect.flushRows r.2.1, Effect.writeCsv r.2.1], some r.2.1)
      else (wh3, tr0 ++ r.2.2 ++ [Effect.flushRows r.2.1], none)

/-- A well-formed in-window submission used for concrete runs. -/
def subOk : Submission :=
  { id := some "a", created_utc := 5, selftext := some "hi", url := "https://x/a",
    link_flair_text := none, title := "t", score := 1, num_comments := 0,
    subreddit_display_name := some "preg", permalink := "/r/p/a" }

/-- An in-window submission whose `id` attribute access raises. -/
def subNoId : Submission := { subOk with id := none, created_utc := 6 }

/-- A second well-formed in-window submission. -/
def subG2 : Submission := { subOk with id := some "b", created_utc := 7, permalink := "/r/p/b" }

/-- A top-listing submission created later than `topS2`. -/
def topS1 : Submission := { subOk with id := some "t1", created_utc := 100 }

/-- A top-listing submission created earlier than `topS1`. -/
def topS2 : Submission := { subOk with id := some "t2", created_utc := 50 }

/-- A raw PullPush item with empty body text and an external URL. -/
def rawEmptyBody : RawPost :=
  { id := some "a", created_utc := some 3, selftext := some "", url := some "https://x/y",
    link_flair_text := none, permalink := some "/r/p/a", title := some "t",
    score := some 1, num_comments := some 0, subreddit := some "preg" }

/-- The record `pullpushExtract` builds from `rawEmptyBody`. -/
def recEmptyBody : PostData :=
  { post_id := "a", post_date := 3, post_timestamp := 3, post_flair := none,
    title := "t", url := "https://reddit.com/r/p/a", content := "https://x/y",
    score := 1, num_comments := 0, subreddit := "preg" }

/-- A page server returning the same item twice in one short page. -/
def dupServer : Int → Nat → List RawPost := fun _ _ => [rawEmptyBody, rawEmptyBody]

/-- A raw item for the pagination witness, created at time 5. -/
def wRaw1 : RawPost := { rawEmptyBody with id := some "w1", created_utc := some 5 }

/-- A raw item for the pagination witness, created at time 7. -/
def wRaw2 : RawPost := { rawEmptyBody with id := some "w2", created_utc := some 7 }

/-- A raw item for the pagination witness short page. -/
def wRaw3 : RawPost := { rawEmptyBody with id := some "w3", created_utc := some 51 }

/-- A page server for the pagination witness: a full page at cursor 0, a
short page at cursor 50, nothing elsewhere. -/
def wServer : Int → Nat → List RawPost := fun after _ =>
  if after = 0 then [wRaw1, wRaw2] else if after = 50 then [wRaw3] else []

/-- A PRAW submission with empty body text, an external URL, and an
empty-string flair. -/
def subC6 : Submission :=
  { id := some "c6", created_utc := 3, selftext := some "", url := "https://x/y",
    link_flair_text := some "", title := "t", score := 0, num_comments := 0,
    subreddit_display_name := some "preg", permalink := "/r/preg/c6" }

/-- The record `topExtract` builds from `subC6`. -/
def recC6 : PostData :=
  { post_id := "c6", post_date := 3, post_timestamp := 3, post_flair := some "",
    title := "t", url := "https://x/y", content := "",
    score := 0, num_comments := 0, subreddit := "preg" }

/-- A three-row source table, all flagged as needing a model pass. -/
def srcDemo : List SourcePost :=
  [{ post_id := "p1", needsAnnot := true, text_for_llm := "t1" },
   { post_id := "p2", needsAnnot := true, text_for_llm := "t2" },
   { post_id := "p3", needsAnnot := true, text_for_llm := "t3" }]

/-- The suffix of the successfully processed ids that is still pending after
the last full-size flush of the batched loop. -/
def remainderAfterFlush (bs : Nat) (succ : List String) : List String :=
  succ.drop (succ.length - succ.length % bs)

lemma annotLoop_flush_append (ok : String → Bool) (bs : Nat) :
    ∀ (l : List SourcePost) (pending flushed : List String),
    (annotLoop ok bs l pending flushed).1 ++ (annotLoop ok bs l pending flushed).2.1
      = flushed ++ pending ++ (l.filter fun p => ok p.post_id).map SourcePost.post_id := by
  intro l
  induction l with
  | nil => intro pending flushed; simp [annotLoop]
  | cons p rest ih =>
    intro pending flushed
    cases hok : ok p.post_id
    · by_cases hbs : bs ≤ pending.length
      · simp [annotLoop, hok, hbs, ih, List.filter_cons]
      · simp [annotLoop, hok, hbs, ih, List.filter_cons]
    · by_cases hbs : bs ≤ pending.length + 1
      · simp [annotLoop, hok, hbs, ih, List.filter_cons]
      · simp [annotLoop, hok, hbs, ih, List.filter_cons]

lemma annotLoop_calls (ok : String → Bool) (bs : Nat) :
    ∀ (l : List SourcePost) (pending flushed : List String),
    (annotLoop ok bs l pending flushed).2.2.filter isAnnotCall
      = l.map fun p => Effect.annotCall p.post_id := by
  intro l
  induction l with
  | nil => intro pending flushed; simp [annotLoop]
  | cons p rest ih =>
    intro pending flushed
    cases hok : ok p.post_id
    · by_cases hbs : bs ≤ pending.length
      · simp [annotLoop, hok, hbs, ih, List.filter_cons, isAnnotCall]
      · simp [annotLoop, hok, hbs, ih, List.filter_cons, isAnnotCall]
    · by_cases hbs : bs ≤ pending.length + 1
      · simp [annotLoop, hok, hbs, ih, List.filter_cons, isAnnotCall]
      · simp [annotLoop, hok, hbs, ih, List.filter_cons, isAnnotCall]

lemma annotLoop_pending (ok : String → Bool) (bs : Nat) :
    ∀ (l : List SourcePost) (pending flushed : List String),
    pending.length < bs →
    (annotLoop ok bs l pending flushed).2.1
      = remainderAfterFlush bs
          (pending ++ (l.filter fun p => ok p.post_id).map SourcePost.post_id) := by
  intro l
  induction l with
  | nil =>
    intro pending flushed h
    simp only [annotLoop, List.filter_nil, List.map_nil, List.append_nil, remainderAfterFlush]
    rw [Nat.mod_eq_of_lt h]
    simp
  | cons p rest ih =>
    intro pending flushed h
    cases hok : ok p.post_id
    · have hbs : ¬ bs ≤ pending.length := by omega
      simp only [annotLoop, hok, Bool.false_eq_true, if_false, hbs, ite_false]
      rw [ih pending flushed h]
      simp [List.filter_cons, hok]
    · by_cases hbs : bs ≤ pending.length + 1
      · have hbseq : bs = pending.length + 1 := by omega
        have hpos : 0 < bs := by omega
        simp only [annotLoop, hok, if_true, List.length_append, List.length_cons,
          List.length_nil, Nat.zero_add, hbs, ite_true]
        rw [ih [] (flushed ++ (pending ++ [p.post_id])) (by simpa using hpos)]
        simp only [List.nil_append, remainderAfterFlush, List.filter_cons, hok,
          if_true, List.map_cons]
        have harr : pending ++ p.post_id
              :: (rest.filter fun q => ok q.post_id).map SourcePost.post_id
            = (pending ++ [p.post_id])
              ++ (rest.filter fun q => ok q.post_id).map SourcePost.post_id := by
          simp
        rw [harr]
        set g := (rest.filter fun q => ok q.post_id).map SourcePost.post_id with hg
        have hlen : (pending ++ [p.post_id]).length = bs := by
          simp [hbseq]
        rw [List.length_append, hlen]
        rw [Nat.add_mod_left bs g.length]
        have hmle : g.length % bs ≤ g.length := Nat.mod_le _ _
        rw [Nat.add_sub_assoc hmle]
        rw [← hlen, List.drop_append]
      · simp only [annotLoop, hok, if_true, List.length_append, List.length_cons,
          List.length_nil, Nat.zero_add, hbs, ite_false]
        rw [ih (pending ++ [p.post_id]) flushed (by simpa using Nat.lt_of_not_le hbs)]
        simp [List.filter_cons, hok, remainderAfterFlush]

lemma annotMain_run_wh (ok : String → Bool) (bs : Nat) (saveCsv : Bool)
    (source : List SourcePost) (limit : Option Nat) (wh : Warehouse) :
    (annotMain ok bs false saveCsv source limit wh).1
      = ⟨true, true,
         wh.annotRows
           ++ ((fetchPostsToAnnot source wh.annotRows limit).filter
                fun p => ok p.post_id).map SourcePost.post_id⟩ := by
  have hkey := annotLoop_flush_append ok bs
    (fetchPostsToAnnot source wh.annotRows limit) [] []
  simp only [List.nil_append] at hkey
  by_cases hpe : (annotLoop ok bs (fetchPostsToAnnot source wh.annotRows limit) [] []).2.1.isEmpty
  · have hnil : (annotLoop ok bs (fetchPostsToAnnot source wh.annotRows limit) [] []).2.1 = [] :=
      List.isEmpty_iff.mp hpe
    rw [hnil, List.append_nil] at hkey
    simp [annotMain, hpe, hkey]
  · by_cases hs : saveCsv
    · simp [annotMain, hpe, hs, ← hkey]
    · simp [annotMain, hpe, hs, ← hkey]

lemma annotMain_run_csv (ok : String → Bool) (bs : Nat) (saveCsv : Bool)
    (source : List SourcePost) (limit : Option Nat) (wh : Warehouse) :
    (annotMain ok bs false saveCsv source limit wh).2.2
      = (if (annotLoop ok bs (fetchPostsToAnnot source wh.annotRows limit) [] []).2.1.isEmpty
         then none
         else if saveCsv
           then some ((annotLoop ok bs (fetchPostsToAnnot source wh.annotRows limit) [] []).2.1)
           else none) := by
  by_cases hpe : (annotLoop ok bs (fetchPostsToAnnot source wh.annotRows limit) [] []).2.1.isEmpty
  · simp [annotMain, hpe]
  · by_cases hs : saveCsv
    · simp [annotMain, hpe, hs]
    · simp [annotMain, hpe, hs]

lemma annotMain_run_calls (ok : String → Bool) (bs : Nat) (saveCsv : Bool)
    (source : List SourcePost) (limit : Option Nat) (wh : Warehouse) :
    (annotMain ok bs false saveCsv source limit wh).2.1.filter isAnnotCall
      = (fetchPostsToAnnot source wh.annotRows limit).map
          fun p => Effect.annotCall p.post_id := by
  have hcalls := annotLoop_calls ok bs (fetchPostsToAnnot source wh.annotRows limit) [] []
  by_cases hpe : (annotLoop ok bs (fetchPostsToAnnot source wh.annotRows limit) [] []).2.1.isEmpty
  · simp [annotMain, hpe, isAnnotCall, hcalls]
  · by_cases hs : saveCsv
    · simp [annotMain, hpe, hs, isAnnotCall, hcalls]
    · simp [annotMain, hpe, hs, isAnnotCall, hcalls]

lemma filter_notin_length :
    ∀ (l : List SourcePost) (F : List String),
    (l.map SourcePost.post_id).Nodup → F.Nodup →
    (∀ x ∈ F, x ∈ l.map SourcePost.post_id) →
    (l.filter fun p => !(decide (p.post_id ∈ F))).length + F.length = l.length := by
  intro l
  induction l with
  | nil =>
    intro F _ _ hsub
    have : F = [] := List.eq_nil_iff_forall_not_mem.mpr fun a ha => by
      simpa using hsub a ha
    simp [this]
  | cons p rest ih =>
    intro F hnd hF hsub
    rw [List.map_cons, List.nodup_cons] at hnd
    obtain ⟨hp, hrest⟩ := hnd
    by_cases hmem : p.post_id ∈ F
    · have hdrop : (!(decide (p.post_id ∈ F))) = false := by simp [hmem]
      have hcong : (rest.filter fun q => !(decide (q.post_id ∈ F)))
          = rest.filter fun q => !(decide (q.post_id ∈ F.erase p.post_id)) := by
        apply List.filter_congr
        intro x hx
        have hxne : x.post_id ≠ p.post_id := fun he =>
          hp (he ▸ List.mem_map_of_mem SourcePost.post_id hx)
        simp [hF.mem_erase_iff, hxne]
      have hsub' : ∀ y ∈ F.erase p.post_id, y ∈ rest.map SourcePost.post_id := by
        intro y hy
        have hyF := List.mem_of_mem_erase hy
        have hyne : y ≠ p.post_id := (hF.mem_erase_iff.mp hy).1
        have := hsub y hyF
        rw [List.map_cons, List.mem_cons] at this
        exact this.resolve_left hyne
      have hlen := List.length_erase_add_one hmem
      have hihm := ih (F.erase p.post_id) hrest (hF.erase p.post_id) hsub'
      rw [← hcong] at hihm
      rw [List.filter_cons, if_neg (by simp [hmem])]
      simp only [List.length_cons]
      omega
    · have hkeep : (!(decide (p.post_id ∈ F))) = true := by simp [hmem]
      have hsub' : ∀ y ∈ F, y ∈ rest.map SourcePost.post_id := by
        intro y hy
        have := hsub y hy
        rw [List.map_cons, List.mem_cons] at this
        refine this.resolve_left fun he => hmem (he ▸ hy)
      have hihm := ih F hrest hF hsub'
      rw [List.filter_cons, if_pos hkeep]
      simp only [List.length_cons]
      omega

lemma annotLoop_drop_failed (ok : String → Bool) (bs : Nat) (bad : SourcePost)
    (hbad : ok bad.post_id = false) :
    ∀ (x y : List SourcePost) (pending flushed : List String),
    (pending = [] ∨ pending.length < bs) →
    (annotLoop ok bs (x ++ bad :: y) pending flushed).1
        = (annotLoop ok bs (x ++ y) pending flushed).1 ∧
    (annotLoop ok bs (x ++ bad :: y) pending flushed).2.1
        = (annotLoop ok bs (x ++ y) pending flushed).2.1 := by
  intro x
  induction x with
  | nil =>
    intro y pending flushed hinv
    by_cases hbs : bs ≤ pending.length
    · have hpe : pending = [] := by
        rcases hinv with h | h
        · exact h
        · omega
      subst hpe
      have hbs0 : bs = 0 := by simpa using hbs
      subst hbs0
      simp [annotLoop, hbad]
    · simp [annotLoop, hbad, hbs]
  | cons a x ih =>
    intro y pending flushed hinv
    cases hok : ok a.post_id
    · by_cases hbs : bs ≤ pending.length
      · have hpe : pending = [] := by
          rcases hinv with h | h
          · exact h
          · omega
        subst hpe
        have hbs0 : bs = 0 := by simpa using hbs
        subst hbs0
        have hih := ih y [] (flushed ++ []) (Or.inl rfl)
        simp only [List.append_nil] at hih
        simp [annotLoop, hok, hih.1, hih.2]
      · have hih := ih y pending flushed hinv
        simp [annotLoop, hok, hbs, hih.1, hih.2]
    · by_cases hbs : bs ≤ pending.length + 1
      · have hih := ih y [] (flushed ++ (pending ++ [a.post_id])) (Or.inl rfl)
        simp [annotLoop, hok, hbs, hih.1, hih.2]
      · have hinv2 : (pending ++ [a.post_id]) = [] ∨ (pending ++ [a.post_id]).length < bs := by
          right
          simp
          omega
        have hih := ih y (pending ++ [a.post_id]) flushed hinv2
        simp [annotLoop, hok, hbs, hih.1, hih.2]

lemma topExtract_ok_id (s : Submission) (p : PostData)
    (h : topExtract s = ExtractResult.ok p) : s.id = some p.post_id := by
  unfold topExtract at h
  cases hid : s.id with
  | none => rw [hid] at h; exact absurd h (by simp)
  | some pid =>
    rw [hid] at h
    cases hsub : s.subreddit_display_name with
    | none => rw [hsub] at h; exact absurd h (by simp)
    | some sub =>
      rw [hsub] at h
      injection h with hrec
      exact congrArg some (congrArg PostData.post_id hrec)

lemma topLoop_nodup (mp : Option Nat) (ff : Option String) :
    ∀ (subs : List Submission) (seen : List String) (c : Nat) (acc : List PostData),
    (acc.map PostData.post_id).Nodup → (∀ p ∈ acc, p.post_id ∈ seen) →
    ∀ out, topLoop mp ff subs seen c acc = some out → (out.map PostData.post_id).Nodup := by
  intro subs
  induction subs with
  | nil =>
    intro seen c acc h1 _ out hout
    simp only [topLoop, Option.some.injEq] at hout
    exact hout ▸ h1
  | cons s rest ih =>
    intro seen c acc h1 h2 out hout
    by_cases hmax : maxHit mp c = true
    · simp only [topLoop, hmax, if_true, Option.some.injEq] at hout
      exact hout ▸ h1
    · simp only [topLoop, hmax, Bool.false_eq_true, if_false] at hout
      cases hid : s.id with
      | none => rw [hid] at hout; simp at hout
      | some pid =>
        rw [hid] at hout
        simp only [] at hout
        by_cases hseen : pid ∈ seen
        · rw [if_pos hseen] at hout
          exact ih seen c acc h1 h2 out hout
        · rw [if_neg hseen] at hout
          set b := (match ff with
              | some f => decide (f ≠ "") && !(flairPass f s.link_flair_text)
              | none => false) with hb
          by_cases hfl : b = true
          · rw [if_pos hfl] at hout
            exact ih seen c acc h1 h2 out hout
          · rw [if_neg hfl] at hout
            cases hex : topExtract s with
            | raised => rw [hex] at hout; cases hout
            | skipped =>
              rw [hex] at hout
              exact ih seen c acc h1 h2 out hout
            | ok p =>
              rw [hex] at hout
              have hpid : p.post_id = pid := by
                have := topExtract_ok_id s p hex
                rw [hid] at this
                exact (Option.some.injEq _ _ ▸ this).symm
              refine ih (seen ++ [pid]) (c + 1) (acc ++ [p]) ?_ ?_ out hout
              · rw [List.map_append, List.map_cons, List.map_nil]
                rw [List.nodup_append]
                refine ⟨h1, List.nodup_singleton _, ?_⟩
                intro a ha hb
                simp only [List.mem_cons, List.not_mem_nil, or_false] at hb
                obtain ⟨q, hq, hqa⟩ := List.mem_map.mp ha
                exact hseen (hpid ▸ hb ▸ hqa ▸ h2 q hq)
              · intro q hq
                rcases List.mem_append.mp hq with hqa | hqp
                · exact List.mem_append_left _ (h2 q hqa)
                · simp only [List.mem_cons, List.not_mem_nil, or_false] at hqp
                  subst hqp
                  exact List.mem_append_right _ (by simp [hpid])

lemma finishBatch_sorted (acc : List (Option PostData)) :
    ((finishBatch acc).map PostData.post_date).Pairwise (· ≤ ·) := by
  unfold finishBatch
  by_cases h : acc.all Option.isSome
  · rw [if_pos h]
    exact List.Pairwise.map PostData.post_date (fun a b hab => hab)
      (List.sorted_insertionSort postDateLe acc.reduceOption)
  · rw [if_neg h]
    simp

/-- Claim C1, counterexample: a single well-formed in-window post in the hot
listing is appended twice by the live-API merge (the hot walk has no
duplicate check and the two-pass `time_filter` loop re-walks it), and the
cursor-forward loop likewise appends a repeated item rather than discarding
it, so both batches repeat the same `post_id`. -/
theorem redditMergeDuplicateAppended :
    (((redditCollect none 0 10 [subOk] []).map PostData.post_id) = ["a", "a"] ∧
      ¬ ((redditCollect none 0 10 [subOk] []).map PostData.post_id).Nodup) ∧
    (((pullpushCollect dupServer none 5 0).map PostData.post_id) = ["a", "a"] ∧
      ¬ ((pullpushCollect dupServer none 5 0).map PostData.post_id).Nodup) := by
  refine ⟨⟨?_, ?_⟩, ?_, ?_⟩
  · decide
  · decide
  · decide
  · decide

/-- Claim C1, amended: only the top-posts collection guarantees that no two
records of a run's batch share a `post_id` (its seen-set discards
duplicates); the live-API merge checks duplicates only in its new-listing
walk and the cursor-forward loop never discards them. -/
theorem topCollectNodupIds (mp : Option Nat) (ff : Option String)
    (subs : List Submission) :
    ((topCollect mp ff subs).map PostData.post_id).Nodup := by
  unfold topCollect
  cases h : topLoop mp ff subs [] 0 [] with
  | none => simp
  | some out =>
    simpa using topLoop_nodup mp ff subs [] 0 []
      (by simp) (by simp) out h

/-- Claim C4, counterexample: the top-posts strategy returns records in the
listing's own order — here creation times `[100, 50]` — without the final
ascending sort the other strategies perform. -/
theorem topCollectUnsorted :
    ((topCollect none none [topS1, topS2]).map PostData.post_date) = [100, 50] ∧
    ¬ ((topCollect none none [topS1, topS2]).map PostData.post_date).Pairwise (· ≤ ·) := by
  constructor
  · decide
  · decide

/-- Claim C4, amended: the cursor-forward and multi-listing-merge strategies
do sort their final batch ascending by creation time before returning it;
the top-posts strategy returns the listing order unsorted (see the
counterexample). -/
theorem collectOutputsSorted :
    (∀ (server : Int → Nat → List RawPost) (mp : Option Nat) (fuel : Nat) (startTs : Int),
      ((pullpushCollect server mp fuel startTs).map PostData.post_date).Pairwise (· ≤ ·)) ∧
    (∀ (mp : Option Nat) (startTs endTs : Int) (hot newL : List Submission),
      ((redditCollect mp startTs endTs hot newL).map PostData.post_date).Pairwise (· ≤ ·)) := by
  constructor
  · intro server mp fuel startTs
    exact List.Pairwise.map PostData.post_date (fun a b hab => hab)
      (List.sorted_insertionSort postDateLe (pullpushLoopAux server mp fuel startTs 0 []))
  · intro mp startTs endTs hot newL
    exact finishBatch_sorted _

/-- Claim C3: in the cursor-forward loop, an empty page stops with the batch
untouched; a non-empty page shorter than the requested size is consumed and
then stops the loop; a page of exactly the requested size is consumed and
triggers a follow-up request whose lower-bound cursor is the last item's
`created_utc`. -/
theorem pullpushPagingStep (server : Int → Nat → List RawPost) (mp : Option Nat)
    (fuel : Nat) (after : Int) (c : Nat) (acc : List PostData) :
    (server after (pullpushSize mp c) = [] →
      pullpushLoopAux server mp (fuel + 1) after c acc = acc) ∧
    (server after (pullpushSize mp c) ≠ [] →
      (server after (pullpushSize mp c)).length < pullpushSize mp c →
      pullpushLoopAux server mp (fuel + 1) after c acc
        = (pullpushConsume mp (server after (pullpushSize mp c)) c acc).2) ∧
    (∀ ts : Int,
      (server after (pullpushSize mp c)).length = pullpushSize mp c →
      server after (pullpushSize mp c) ≠ [] →
      ((server after (pullpushSize mp c)).getLast?.bind RawPost.created_utc) = some ts →
      pullpushLoopAux server mp (fuel + 1) after c acc
        = pullpushLoopAux server mp fuel ts
            (pullpushConsume mp (server after (pullpushSize mp c)) c acc).1
            (pullpushConsume mp (server after (pullpushSize mp c)) c acc).2) := by
  refine ⟨?_, ?_, ?_⟩
  · intro hempty
    simp only [pullpushLoopAux]
    rw [if_pos hempty]
  · intro hne hlt
    simp only [pullpushLoopAux]
    rw [if_neg hne, if_pos hlt]
  · intro ts hlen hne hlast
    simp only [pullpushLoopAux]
    rw [if_neg hne, if_neg (by omega), hlast]

/-- Claim C3, witness: with a two-item page size (`max_posts = 2`), a full
page at cursor 0 continues at the last item's timestamp 7, a one-item page
at cursor 50 consumes and stops, and an empty page at cursor 99 stops. -/
theorem pullpushPagingStepWitness :
    (pullpushLoopAux wServer (some 2) 5 99 0 [] = []) ∧
    (pullpushLoopAux wServer (some 2) 5 50 0 []
      = (pullpushConsume (some 2) (wServer 50 (pullpushSize (some 2) 0)) 0 []).2) ∧
    (pullpushLoopAux wServer (some 2) 5 0 0 []
      = pullpushLoopAux wServer (some 2) 4 7
          (pullpushConsume (some 2) (wServer 0 (pullpushSize (some 2) 0)) 0 []).1
          (pullpushConsume (some 2) (wServer 0 (pullpushSize (some 2) 0)) 0 []).2) := by
  refine ⟨?_, ?_, ?_⟩
  · exact (pullpushPagingStep wServer (some 2) 4 99 0 []).1 (by decide)
  · exact (pullpushPagingStep wServer (some 2) 4 50 0 []).2.1 (by decide) (by decide)
  · exact (pullpushPagingStep wServer (some 2) 4 0 0 []).2.2 7 (by decide) (by decide) (by decide)

/-- Claim C7 (code bug): in the live-API path a raw item whose identifier
is missing makes the extractor's own error-log line re-raise, aborting the
whole listing pass: with hot listing `[good, missing-id, good2]` the run
returns 2 records (the first good item, twice), while the same listing with
the identifier present returns 6 — the batch does not simply shrink by one,
and items after the malformed one are lost. -/
theorem redditMissingIdAborts :
    subNoId.id = none ∧
    (redditCollect none 0 10 [subOk, subNoId, subG2] []).length = 2 ∧
    (redditCollect none 0 10 [subOk, { subNoId with id := some "fixed" }, subG2] []).length = 6 := by
  refine ⟨rfl, ?_, ?_⟩
  · decide
  · decide

/-- Claim C5, counterexample: the CLI calls `create_annotation_table` before
checking `--dry-run`, so a dry run against a warehouse without the table
still creates the schema and table — a write to a warehouse object. -/
theorem dryRunCreatesTable :
    ((⟨false, false, []⟩ : Warehouse).tableExists = false) ∧
    ((annotMain (fun _ => true) 10 true false srcDemo none ⟨false, false, []⟩).1.tableExists
      = true) ∧
    Effect.createTable
      ∈ (annotMain (fun _ => true) 10 true false srcDemo none ⟨false, false, []⟩).2.1 := by
  refine ⟨rfl, ?_, ?_⟩
  · decide
  · decide

/-- Claim C5, amended: under `--dry-run` the CLI makes no model calls,
inserts no rows, writes no CSV, and leaves the row set unchanged — but it
still issues the idempotent `CREATE SCHEMA` / `CREATE TABLE` statements
(creating those warehouse objects when absent) before the dry-run check. -/
theorem dryRunNoCallsNoRows (ok : String → Bool) (bs : Nat) (saveCsv : Bool)
    (source : List SourcePost) (limit : Option Nat) (wh : Warehouse) :
    ((annotMain ok bs true saveCsv source limit wh).2.1.filter isAnnotCall = []) ∧
    ((annotMain ok bs true saveCsv source limit wh).2.1.filter isRowWrite = []) ∧
    ((annotMain ok bs true saveCsv source limit wh).1.annotRows = wh.annotRows) ∧
    ((annotMain ok bs true saveCsv source limit wh).2.2 = none) ∧
    ((annotMain ok bs true saveCsv source limit wh).1.schemaExists = true) ∧
    ((annotMain ok bs true saveCsv source limit wh).1.tableExists = true) := by
  refine ⟨?_, ?_, ?_, ?_, ?_, ?_⟩ <;> simp [annotMain, isAnnotCall, isRowWrite]

/-- Claim C6, counterexample: the top-posts extractor maps an item with
empty body text and URL `https://x/y` to `content = ""` (not the URL),
keeps `url` verbatim instead of rebuilding it from the permalink, and keeps
a present-but-empty flair instead of dropping it. -/
theorem topExtractFieldCex :
    topExtract subC6 = ExtractResult.ok recC6 ∧
    recC6.content = "" ∧
    subC6.url = "https://x/y" ∧
    recC6.content ≠ subC6.url ∧
    recC6.url = subC6.url ∧
    recC6.url ≠ "https://reddit.com" ++ subC6.permalink ∧
    recC6.post_flair = some "" := by
  refine ⟨?_, rfl, rfl, ?_, rfl, ?_, rfl⟩
  · decide
  · decide
  · decide

/-- Claim C6, amended: the PullPush extractor follows the content rule
(body text if non-empty, else the item's URL field) and rebuilds `url` from
the permalink, but copies the flair field as-is (absent only when missing);
the live-API extractor follows the content and url rules and additionally
normalizes an empty flair to absent; the top-posts extractor copies
`content`, `url` and flair verbatim from the source item. -/
theorem extractFieldRules :
    (∀ (raw : RawPost) (d : PostData), pullpushExtract raw = some d →
      (raw.selftext.getD "" ≠ "" → d.content = raw.selftext.getD "") ∧
      (raw.selftext.getD "" = "" → d.content = raw.url.getD "") ∧
      d.url = "https://reddit.com" ++ raw.permalink.getD "" ∧
      d.post_flair = raw.link_flair_text) ∧
    (∀ (s : Submission) (r : PostData) (st : String), redditExtract s = ExtractResult.ok r →
      s.selftext = some st →
      (st ≠ "" → r.content = st) ∧
      (st = "" → r.content = s.url) ∧
      r.url = "https://reddit.com" ++ s.permalink ∧
      ((s.link_flair_text = none ∨ s.link_flair_text = some "") → r.post_flair = none) ∧
      (∀ t, s.link_flair_text = some t → t ≠ "" → r.post_flair = some t)) ∧
    (∀ (s : Submission) (r : PostData), topExtract s = ExtractResult.ok r →
      r.content = s.selftext.getD "" ∧ r.url = s.url ∧ r.post_flair = s.link_flair_text) := by
  refine ⟨?_, ?_, ?_⟩
  · intro raw d h
    unfold pullpushExtract at h
    cases hts : raw.created_utc with
    | none => rw [hts] at h; cases h
    | some ts =>
      cases hid : raw.id with
      | none => rw [hts, hid] at h; cases h
      | some pid =>
        rw [hts, hid] at h
        injection h with hrec
        subst hrec
        refine ⟨fun hne => ?_, fun he => ?_, rfl, rfl⟩
        · simp only [if_neg hne]
        · simp only [if_pos he]
  · intro s r st h hst
    unfold redditExtract at h
    cases hid : s.id with
    | none => rw [hid] at h; cases h
    | some pid =>
      rw [hid, hst] at h
      cases hsub : s.subreddit_display_name with
      | none => rw [hsub] at h; cases h
      | some sub =>
        rw [hsub] at h
        injection h with hrec
        subst hrec
        refine ⟨fun hne => ?_, fun he => ?_, rfl, ?_, ?_⟩
        · simp only [if_neg hne]
        · simp only [if_pos he]
        · rintro (hf | hf) <;> simp [hf]
        · intro t ht htne
          simp [ht, htne]
  · intro s r h
    unfold topExtract at h
    cases hid : s.id with
    | none => rw [hid] at h; cases h
    | some pid =>
      rw [hid] at h
      cases hsub : s.subreddit_display_name with
      | none => rw [hsub] at h; cases h
      | some sub =>
        rw [hsub] at h
        injection h with hrec
        subst hrec
        exact ⟨rfl, rfl, rfl⟩

/-- Claim C6, witness: the rules applied at concrete items — the PullPush
extractor falls back to the URL for an empty body, and the live-API
extractor drops an empty flair. -/
theorem extractFieldRulesWitness :
    (pullpushExtract rawEmptyBody = some recEmptyBody ∧
      recEmptyBody.content = "https://x/y") ∧
    (redditExtract subC6 = ExtractResult.ok
      { post_id := "c6", post_date := 3, post_timestamp := 3, post_flair := none,
        title := "t", url := "https://reddit.com/r/preg/c6", content := "https://x/y",
        score := 0, num_comments := 0, subreddit := "preg" } ∧
      ({ post_id := "c6", post_date := 3, post_timestamp := 3, post_flair := none,
         title := "t", url := "https://reddit.com/r/preg/c6", content := "https://x/y",
         score := 0, num_comments := 0, subreddit := "preg" } : PostData).post_flair = none) := by
  constructor
  · refine ⟨by decide, ?_⟩
    have h := ((extractFieldRules.1 rawEmptyBody recEmptyBody (by decide)).2.1 (by decide))
    exact h.trans (by decide)
  · refine ⟨by decide, ?_⟩
    exact (extractFieldRules.2.1 subC6
      { post_id := "c6", post_date := 3, post_timestamp := 3, post_flair := none,
        title := "t", url := "https://reddit.com/r/preg/c6", content := "https://x/y",
        score := 0, num_comments := 0, subreddit := "preg" } "" (by decide) rfl).2.2.2.1
      (Or.inr rfl)

/-- Claim C2, counterexample: with the fetch limit (CLI default 10, here 2)
smaller than the eligible set, a re-run after all M = 2 selected records
were flushed pulls in further eligible posts, ending with 3 rows, not M. -/
theorem annotResumeLimitCex :
    "p1" ∈ (fetchPostsToAnnot srcDemo [] (some 2)).map SourcePost.post_id ∧
    (fetchPostsToAnnot srcDemo [] (some 2)).length = 2 ∧
    ((annotMain (fun _ => true) 10 false false srcDemo (some 2)
        ⟨true, true, ["p1"]⟩).1.annotRows).length = 3 ∧
    (3 : Nat) ≠ 2 := by
  refine ⟨by decide, by decide, by decide, by decide⟩

/-- Claim C2, amended: the anti-join FETCH never re-selects a flushed id,
and — when the fetch is not truncated by a limit — a re-run after N of the
M originally selected records were flushed ends with exactly M rows,
assuming every remaining record succeeds. -/
theorem annotResumeExact (source : List SourcePost) (F : List String)
    (ok : String → Bool) (bs : Nat) (saveCsv : Bool)
    (hnd : (source.map SourcePost.post_id).Nodup) (hFnd : F.Nodup)
    (hFsub : ∀ x ∈ F, x ∈ (source.filter SourcePost.needsAnnot).map SourcePost.post_id)
    (hok : ∀ p ∈ fetchPostsToAnnot source F none, ok p.post_id = true) :
    (∀ p ∈ fetchPostsToAnnot source F none, p.post_id ∉ F) ∧
    ((annotMain ok bs false saveCsv source none ⟨true, true, F⟩).1.annotRows).length
      = (source.filter SourcePost.needsAnnot).length := by
  have hfetch : fetchPostsToAnnot source F none
      = (source.filter SourcePost.needsAnnot).filter fun p => !(decide (p.post_id ∈ F)) := by
    simp only [fetchPostsToAnnot, List.filter_filter]
    apply List.filter_congr
    intro x _
    exact Bool.and_comm _ _
  constructor
  · intro p hp hmem
    rw [hfetch] at hp
    have := List.of_mem_filter hp
    simp [hmem] at this
  · rw [annotMain_run_wh]
    have hall : ∀ p ∈ fetchPostsToAnnot source F none, (fun q => ok q.post_id) p = true := hok
    simp only [List.filter_eq_self.mpr hall]
    rw [hfetch]
    have hsubl : ((source.filter SourcePost.needsAnnot).map SourcePost.post_id).Nodup :=
      List.Nodup.sublist (List.Sublist.map _ (List.filter_sublist source)) hnd
    have hcount := filter_notin_length (source.filter SourcePost.needsAnnot) F hsubl hFnd hFsub
    simp only [List.length_append, List.length_map]
    omega

/-- Claim C2, witness: with no limit, three eligible posts of which `p1`
was already flushed, a re-run ends with exactly 3 = M rows. -/
theorem annotResumeExactWitness :
    ((annotMain (fun _ => true) 10 false false srcDemo none
        ⟨true, true, ["p1"]⟩).1.annotRows).length
      = (srcDemo.filter SourcePost.needsAnnot).length :=
  (annotResumeExact srcDemo ["p1"] (fun _ => true) 10 false
    (by decide) (by decide) (by decide) (by decide)).2

/-- Claim C8: a record whose model call fails is simply dropped — the final
warehouse state and CSV output are those of the same run without that
record — and the trace shows exactly one model call per fetched record, in
order, so the failing record is called once (never retried) and the records
after it are still processed. -/
theorem annotFailureIsolated (ok : String → Bool) (bs : Nat) (saveCsv : Bool)
    (wh : Warehouse) (l1 l2 : List SourcePost) (bad : SourcePost)
    (hbad : ok bad.post_id = false) :
    (annotMain ok bs false saveCsv (l1 ++ bad :: l2) none wh).1
      = (annotMain ok bs false saveCsv (l1 ++ l2) none wh).1 ∧
    (annotMain ok bs false saveCsv (l1 ++ bad :: l2) none wh).2.2
      = (annotMain ok bs false saveCsv (l1 ++ l2) none wh).2.2 ∧
    (annotMain ok bs false saveCsv (l1 ++ bad :: l2) none wh).2.1.filter isAnnotCall
      = (fetchPostsToAnnot (l1 ++ bad :: l2) wh.annotRows none).map
          fun p => Effect.annotCall p.post_id := by
  set pred := fun p : SourcePost => p.needsAnnot && !(decide (p.post_id ∈ wh.annotRows))
    with hpred
  have hfW : fetchPostsToAnnot (l1 ++ bad :: l2) wh.annotRows none
      = l1.filter pred ++ (bad :: l2).filter pred := by
    simp only [fetchPostsToAnnot, List.filter_append, hpred]
  have hfO : fetchPostsToAnnot (l1 ++ l2) wh.annotRows none
      = l1.filter pred ++ l2.filter pred := by
    simp only [fetchPostsToAnnot, List.filter_append, hpred]
  refine ⟨?_, ?_, ?_⟩
  · rw [annotMain_run_wh, annotMain_run_wh]
    have hsucc : (fetchPostsToAnnot (l1 ++ bad :: l2) wh.annotRows none).filter
          (fun p => ok p.post_id)
        = (fetchPostsToAnnot (l1 ++ l2) wh.annotRows none).filter
          (fun p => ok p.post_id) := by
      rw [hfW, hfO, List.filter_append, List.filter_append]
      congr 1
      rw [List.filter_cons]
      by_cases hb : pred bad = true
      · rw [if_pos hb, List.filter_cons, if_neg (by simp [hbad])]
      · rw [if_neg hb]
    rw [hsucc]
  · rw [annotMain_run_csv, annotMain_run_csv]
    by_cases hb : pred bad = true
    · have hsplit : fetchPostsToAnnot (l1 ++ bad :: l2) wh.annotRows none
          = l1.filter pred ++ bad :: l2.filter pred := by
        rw [hfW, List.filter_cons, if_pos hb]
      have hdrop := annotLoop_drop_failed ok bs bad hbad
        (l1.filter pred) (l2.filter pred) [] [] (Or.inl rfl)
      rw [hsplit, hfO, hdrop.2]
    · have heq : fetchPostsToAnnot (l1 ++ bad :: l2) wh.annotRows none
          = fetchPostsToAnnot (l1 ++ l2) wh.annotRows none := by
        rw [hfW, hfO, List.filter_cons, if_neg hb]
      rw [heq]
  · exact annotMain_run_calls ok bs saveCsv (l1 ++ bad :: l2) none wh

/-- Claim C8, witness: a three-record run whose middle record fails yields
the same warehouse and CSV as the two-record run without it, with one model
call per fetched record. -/
theorem annotFailureIsolatedWitness :
    ((annotMain (fun s => !(s == "bad")) 10 false false
        ([⟨"a", true, "t"⟩] ++ ⟨"bad", true, "t"⟩ :: [⟨"b", true, "t"⟩]) none
        ⟨true, true, []⟩).1
      = (annotMain (fun s => !(s == "bad")) 10 false false
        ([⟨"a", true, "t"⟩] ++ [⟨"b", true, "t"⟩]) none ⟨true, true, []⟩).1) ∧
    ((annotMain (fun s => !(s == "bad")) 10 false false
        ([⟨"a", true, "t"⟩] ++ ⟨"bad", true, "t"⟩ :: [⟨"b", true, "t"⟩]) none
        ⟨true, true, []⟩).2.2
      = (annotMain (fun s => !(s == "bad")) 10 false false
        ([⟨"a", true, "t"⟩] ++ [⟨"b", true, "t"⟩]) none ⟨true, true, []⟩).2.2) ∧
    ((annotMain (fun s => !(s == "bad")) 10 false false
        ([⟨"a", true, "t"⟩] ++ ⟨"bad", true, "t"⟩ :: [⟨"b", true, "t"⟩]) none
        ⟨true, true, []⟩).2.1.filter isAnnotCall
      = (fetchPostsToAnnot ([⟨"a", true, "t"⟩] ++ ⟨"bad", true, "t"⟩ :: [⟨"b", true, "t"⟩])
          (⟨true, true, []⟩ : Warehouse).annotRows none).map
          fun p => Effect.annotCall p.post_id) :=
  annotFailureIsolated (fun s => !(s == "bad")) 10 false ⟨true, true, []⟩
    [⟨"a", true, "t"⟩] [⟨"b", true, "t"⟩] ⟨"bad", true, "t"⟩ (by decide)

/-- Claim C9: the duplication-check CLI prints `EXISTS` with exit status 0
exactly when an enabled sink matches (CSV glob under `--check-csv`, a
reachable warehouse row count under `--check-snowflake`), and otherwise
prints `NOT_EXISTS` with exit status 1; the exit status always pairs with
the printed verdict. -/
theorem checkCliVerdict (checkCsv checkSf : Bool) (sub date : String)
    (files : List String) (connOk : Bool) (t : PostsTable) :
    checkMain checkCsv checkSf sub date files connOk t
      = (if (checkCsv && checkExistingCsv sub date files)
            || (checkSf && (connOk && checkExistingData sub date t))
         then ("EXISTS", 0) else ("NOT_EXISTS", 1)) ∧
    ((checkMain checkCsv checkSf sub date files connOk t).2 = 0
      ↔ (checkMain checkCsv checkSf sub date files connOk t).1 = "EXISTS") ∧
    ((checkMain checkCsv checkSf sub date files connOk t).2 = 1
      ↔ (checkMain checkCsv checkSf sub date files connOk t).1 = "NOT_EXISTS") := by
  have hne : ("NOT_EXISTS" : String) ≠ "EXISTS" := by decide
  have hne2 : ("EXISTS" : String) ≠ "NOT_EXISTS" := by decide
  cases checkCsv <;> cases checkSf <;> cases connOk <;>
    by_cases h1 : checkExistingCsv sub date files <;>
    by_cases h2 : checkExistingData sub date t <;>
    simp [checkMain, h1, h2, hne, hne2]

/-- Claim C10: a CSV is produced exactly when `--save-csv` is set and the
remainder after the last full-size flush is non-empty, and it contains
precisely that remainder — ids flushed in earlier full batches never appear
in the CSV. -/
theorem saveCsvRemainderOnly (ok : String → Bool) (bs : Nat) (saveCsv : Bool)
    (source : List SourcePost) (limit : Option Nat) (wh : Warehouse)
    (hbs : 0 < bs) :
    (annotMain ok bs false saveCsv source limit wh).2.2
      = (if saveCsv ∧ remainderAfterFlush bs
              (((fetchPostsToAnnot source wh.annotRows limit).filter
                fun p => ok p.post_id).map SourcePost.post_id) ≠ []
         then some (remainderAfterFlush bs
              (((fetchPostsToAnnot source wh.annotRows limit).filter
                fun p => ok p.post_id).map SourcePost.post_id))
         else none) := by
  rw [annotMain_run_csv]
  have hpend := annotLoop_pending ok bs (fetchPostsToAnnot source wh.annotRows limit) [] []
    (by simpa using hbs)
  simp only [List.nil_append] at hpend
  rw [hpend]
  set R := remainderAfterFlush bs
    (((fetchPostsToAnnot source wh.annotRows limit).filter
      fun p => ok p.post_id).map SourcePost.post_id) with hR
  by_cases hrem : R = []
  · simp [hrem]
  · by_cases hs : saveCsv <;> simp [hrem, hs, List.isEmpty_iff]

/-- Claim C10, witness: three successes with batch size 2 flush `p1, p2`
in-loop and leave only `p3` for the CSV. -/
theorem saveCsvRemainderOnlyWitness :
    (annotMain (fun _ => true) 2 false true srcDemo none ⟨true, true, []⟩).2.2
      = some ["p3"] := by
  have h := saveCsvRemainderOnly (fun _ => true) 2 true srcDemo none ⟨true, true, []⟩
    (by decide)
  rw [h]
  decide
